import Mathlib

/-
Verification of the fly-camera controller (src/lib.rs).

The Rust source is shallowly embedded below: f32 arithmetic is idealised as
real arithmetic, glam vectors and quaternions become `Vec3` and `Quat`
structures over ℝ, and each per-tick system (`player_move`, `player_look`,
`cursor_grab`) becomes a pure function of the window, input and transform
state.  Window availability is an `Option Window`; each system returns the
warning strings it logs.
-/

namespace FlyCam

open Real

/-- A glam `Vec3` (f32 components idealised as ℝ). -/
@[ext] structure Vec3 where
  x : ℝ
  y : ℝ
  z : ℝ

instance : Zero Vec3 := ⟨⟨0, 0, 0⟩⟩

instance : Add Vec3 := ⟨fun a b => ⟨a.x + b.x, a.y + b.y, a.z + b.z⟩⟩

instance : Neg Vec3 := ⟨fun a => ⟨-a.x, -a.y, -a.z⟩⟩

instance : Sub Vec3 := ⟨fun a b => ⟨a.x - b.x, a.y - b.y, a.z - b.z⟩⟩

instance : SMul ℝ Vec3 := ⟨fun c a => ⟨c * a.x, c * a.y, c * a.z⟩⟩

@[simp] theorem Vec3.zero_x : (0 : Vec3).x = 0 := rfl
@[simp] theorem Vec3.zero_y : (0 : Vec3).y = 0 := rfl
@[simp] theorem Vec3.zero_z : (0 : Vec3).z = 0 := rfl
@[simp] theorem Vec3.add_x (a b : Vec3) : (a + b).x = a.x + b.x := rfl
@[simp] theorem Vec3.add_y (a b : Vec3) : (a + b).y = a.y + b.y := rfl
@[simp] theorem Vec3.add_z (a b : Vec3) : (a + b).z = a.z + b.z := rfl
@[simp] theorem Vec3.neg_x (a : Vec3) : (-a).x = -a.x := rfl
@[simp] theorem Vec3.neg_y (a : Vec3) : (-a).y = -a.y := rfl
@[simp] theorem Vec3.neg_z (a : Vec3) : (-a).z = -a.z := rfl
@[simp] theorem Vec3.sub_x (a b : Vec3) : (a - b).x = a.x - b.x := rfl
@[simp] theorem Vec3.sub_y (a b : Vec3) : (a - b).y = a.y - b.y := rfl
@[simp] theorem Vec3.sub_z (a b : Vec3) : (a - b).z = a.z - b.z := rfl
@[simp] theorem Vec3.smul_x (c : ℝ) (a : Vec3) : (c • a).x = c * a.x := rfl
@[simp] theorem Vec3.smul_y (c : ℝ) (a : Vec3) : (c • a).y = c * a.y := rfl
@[simp] theorem Vec3.smul_z (c : ℝ) (a : Vec3) : (c • a).z = c * a.z := rfl

/-- The world-up unit vector `Vec3::Y`. -/
def Vec3.unitY : Vec3 := ⟨0, 1, 0⟩

/-- The unit vector `Vec3::X`. -/
def Vec3.unitX : Vec3 := ⟨1, 0, 0⟩

/-- Euclidean length of a `Vec3` (glam `length`). -/
noncomputable def norm3 (v : Vec3) : ℝ := Real.sqrt (v.x ^ 2 + v.y ^ 2 + v.z ^ 2)

open Classical in
/-- glam `Vec3::normalize_or_zero`: the input scaled by the reciprocal of its
length, or zero when the length is zero (the reciprocal is not finite). -/
noncomputable def normalizeOrZero (v : Vec3) : Vec3 :=
  if norm3 v = 0 then 0 else (1 / norm3 v) • v

/-- glam `normalize` as the spec describes it: input scaled to unit length
(meaningful only for nonzero input). -/
noncomputable def normalize3 (v : Vec3) : Vec3 := (1 / norm3 v) • v

/-- A glam `Quat` (f32 components idealised as ℝ; `w` is the scalar part). -/
@[ext] structure Quat where
  x : ℝ
  y : ℝ
  z : ℝ
  w : ℝ

/-- Hamilton product of two quaternions (glam `Quat::mul`). -/
def Quat.mul (a b : Quat) : Quat :=
  ⟨a.w * b.x + a.x * b.w + a.y * b.z - a.z * b.y,
   a.w * b.y - a.x * b.z + a.y * b.w + a.z * b.x,
   a.w * b.z + a.x * b.y - a.y * b.x + a.z * b.w,
   a.w * b.w - a.x * b.x - a.y * b.y - a.z * b.z⟩

/-- glam `Quat::from_axis_angle` (the axis is assumed to be unit length). -/
noncomputable def fromAxisAngle (axis : Vec3) (angle : ℝ) : Quat :=
  ⟨axis.x * Real.sin (angle / 2), axis.y * Real.sin (angle / 2),
   axis.z * Real.sin (angle / 2), Real.cos (angle / 2)⟩

/-- Predicate: `q` is a unit quaternion, i.e. a valid rotation. -/
def unitQuat (q : Quat) : Prop := q.x ^ 2 + q.y ^ 2 + q.z ^ 2 + q.w ^ 2 = 1

/-- bevy `Transform::local_z()`: the rotation applied to `Vec3::Z`, i.e. the third
column of the rotation matrix of the unit quaternion `q`. -/
def localZ (q : Quat) : Vec3 :=
  ⟨2 * (q.x * q.z + q.w * q.y), 2 * (q.y * q.z - q.w * q.x),
   1 - 2 * (q.x ^ 2 + q.y ^ 2)⟩

/-- Two-argument arctangent with range (-π, π], via the complex argument. -/
noncomputable def atan2 (y x : ℝ) : ℝ := Complex.arg (x + y * Complex.I)

/-- glam `Quat::to_euler(EulerRot::YXZ)`: (yaw, pitch, roll) extraction from a unit
quaternion, reading the standard rotation-matrix entries (away from the
gimbal-lock poles).  The arcsin argument is effectively clamped to [-1, 1]
because `Real.arcsin` is constant outside that interval, matching the f32
implementation's safe-asin clamp. -/
noncomputable def toEulerYXZ (q : Quat) : ℝ × ℝ × ℝ :=
  (atan2 (2 * (q.x * q.z + q.w * q.y)) (1 - 2 * (q.x ^ 2 + q.y ^ 2)),
   Real.arcsin (2 * (q.w * q.x - q.y * q.z)),
   atan2 (2 * (q.x * q.y + q.w * q.z)) (1 - 2 * (q.x ^ 2 + q.z ^ 2)))

/-- Rust `f32::clamp(lo, hi)` for `lo ≤ hi`. -/
noncomputable def clampR (x lo hi : ℝ) : ℝ := max lo (min x hi)

/-- f32 `to_radians`: multiply by π/180. -/
noncomputable def toRadians (x : ℝ) : ℝ := x * (Real.pi / 180)

/-- bevy `CursorGrabMode`. -/
inductive CursorGrabMode where
  | none
  | confined
  | locked
deriving DecidableEq

/-- The window state the controller touches: cursor grab mode, cursor
visibility, and the pixel dimensions. -/
structure Window where
  grab_mode : CursorGrabMode
  visible : Bool
  height : ℝ
  width : ℝ

/-- Rust `toggle_grab_cursor` (src/lib.rs:67-78): free becomes confined+hidden,
anything else becomes free+visible. -/
def toggle_grab_cursor (w : Window) : Window :=
  match w.grab_mode with
  | CursorGrabMode.none =>
      { w with grab_mode := CursorGrabMode.confined, visible := false }
  | _ => { w with grab_mode := CursorGrabMode.none, visible := true }

/-- The bevy `KeyCode` values the controller's defaults use. -/
inductive KeyCode where
  | keyW
  | keyS
  | keyA
  | keyD
  | space
  | shiftLeft
  | escape
  | arrowLeft
  | arrowRight
  | arrowUp
  | arrowDown
deriving DecidableEq

/-- The `KeyBindings` resource (src/lib.rs:29-41). -/
structure KeyBindings where
  move_forward : KeyCode
  move_backward : KeyCode
  move_left : KeyCode
  move_right : KeyCode
  move_ascend : KeyCode
  move_descend : KeyCode
  toggle_grab_cursor : KeyCode
  look_left : KeyCode
  look_right : KeyCode
  look_up : KeyCode
  look_down : KeyCode

/-- Rust `KeyBindings::default` (src/lib.rs:43-59). -/
def KeyBindings.default : KeyBindings :=
  ⟨KeyCode.keyW, KeyCode.keyS, KeyCode.keyA, KeyCode.keyD, KeyCode.space,
   KeyCode.shiftLeft, KeyCode.escape, KeyCode.arrowLeft, KeyCode.arrowRight,
   KeyCode.arrowUp, KeyCode.arrowDown⟩

/-- The `MovementSettings` resource (src/lib.rs:11-15). -/
structure MovementSettings where
  mouse_sensitivity : ℝ
  keyboard_sensitivity : ℝ
  move_speed : ℝ

/-- Rust `MovementSettings::default` (src/lib.rs:17-25). -/
noncomputable def MovementSettings.default : MovementSettings :=
  ⟨0.00012, 0.05, 12⟩

/-- A bevy `Transform` restricted to the parts the controller touches. -/
structure Transform where
  translation : Vec3
  rotation : Quat

/-- bevy `ButtonInput<KeyCode>`: currently held keys and keys freshly pressed
this tick. -/
structure ButtonInput where
  pressed : List KeyCode
  just_pressed : List KeyCode

/-- The per-key dispatch of `player_move` (src/lib.rs:120-132): an else-if
chain adding the matching direction to the accumulated velocity. -/
def moveKeyStep (kb : KeyBindings) (forward right : Vec3) (v : Vec3)
    (key : KeyCode) : Vec3 :=
  if key = kb.move_forward then v + forward
  else if key = kb.move_backward then v - forward
  else if key = kb.move_left then v - right
  else if key = kb.move_right then v + right
  else if key = kb.move_ascend then v + Vec3.unitY
  else if key = kb.move_descend then v - Vec3.unitY
  else v

/-- The forward vector of `player_move` (src/lib.rs:112):
`-Vec3::new(local_z.x, 0., local_z.z)` — note: not normalized. -/
def moveForward (q : Quat) : Vec3 := -(⟨(localZ q).x, 0, (localZ q).z⟩ : Vec3)

/-- The right vector of `player_move` (src/lib.rs:113):
`Vec3::new(local_z.z, 0., -local_z.x)` — note: not normalized. -/
def moveRight (q : Quat) : Vec3 := ⟨(localZ q).z, 0, -(localZ q).x⟩

/-- The velocity accumulated by `player_move`'s key loop
(src/lib.rs:110-135) before normalization: each held key contributes via
`moveKeyStep` unless the cursor grab mode is free. -/
def moveVelocityRaw (kb : KeyBindings) (w : Window) (pressed : List KeyCode)
    (q : Quat) : Vec3 :=
  pressed.foldl
    (fun v key =>
      match w.grab_mode with
      | CursorGrabMode.none => v
      | _ => moveKeyStep kb (moveForward q) (moveRight q) v key)
    0

/-- The per-camera update of `player_move` (src/lib.rs:109-139): accumulate,
normalize-or-zero, and advance the translation by
`velocity * delta_secs * move_speed`. -/
noncomputable def player_move_one (settings : MovementSettings)
    (kb : KeyBindings) (w : Window) (pressed : List KeyCode) (dt : ℝ)
    (t : Transform) : Transform :=
  { t with
    translation :=
      t.translation +
        (dt * settings.move_speed) •
          normalizeOrZero (moveVelocityRaw kb w pressed t.rotation) }

/-- Which look-input branch was compiled in: the `look-control-keyboard`
feature flag (src/lib.rs:164,171). -/
inductive LookMode where
  | pointer
  | keyboard

/-- The orientation `player_look` writes back (src/lib.rs:190-191):
`Quat::from_axis_angle(Vec3::Y, yaw) * Quat::from_axis_angle(Vec3::X, pitch)`. -/
noncomputable def lookQuat (yaw pitch : ℝ) : Quat :=
  Quat.mul (fromAxisAngle Vec3.unitY yaw) (fromAxisAngle Vec3.unitX pitch)

/-- The per-key dispatch of `player_look`'s keyboard branch
(src/lib.rs:173-184). -/
noncomputable def lookKeyStep (settings : MovementSettings) (kb : KeyBindings)
    (dt scale : ℝ) (yp : ℝ × ℝ) (key : KeyCode) : ℝ × ℝ :=
  if key = kb.look_up then
    (yp.1, yp.2 + toRadians (settings.keyboard_sensitivity * dt * scale))
  else if key = kb.look_down then
    (yp.1, yp.2 - toRadians (settings.keyboard_sensitivity * dt * scale))
  else if key = kb.look_left then
    (yp.1 + toRadians (settings.keyboard_sensitivity * dt * scale), yp.2)
  else if key = kb.look_right then
    (yp.1 - toRadians (settings.keyboard_sensitivity * dt * scale), yp.2)
  else yp

/-- The (yaw, pitch) pair `player_look` accumulates (src/lib.rs:158-186):
start from the Y-X-Z Euler extraction of the current rotation; when the
cursor is captured, fold this tick's mouse-motion deltas (pointer mode) or
held look keys (keyboard mode) over it; when the grab mode is free, keep the
extracted angles. `scale` is `min height width`. -/
noncomputable def lookAngles (mode : LookMode) (settings : MovementSettings)
    (kb : KeyBindings) (w : Window) (pressed : List KeyCode)
    (events : List (ℝ × ℝ)) (dt : ℝ) (q : Quat) : ℝ × ℝ :=
  let e := toEulerYXZ q
  let scale := min w.height w.width
  match w.grab_mode with
  | CursorGrabMode.none => (e.1, e.2.1)
  | _ =>
    match mode with
    | LookMode.pointer =>
        events.foldl
          (fun yp d =>
            (yp.1 - toRadians (settings.mouse_sensitivity * d.1 * scale),
             yp.2 - toRadians (settings.mouse_sensitivity * d.2 * scale)))
          (e.1, e.2.1)
    | LookMode.keyboard => pressed.foldl (lookKeyStep settings kb dt scale) (e.1, e.2.1)

/-- The per-camera update of `player_look` (src/lib.rs:157-192): accumulate yaw
and pitch, clamp pitch to [-1.54, 1.54], and rebuild the rotation as
yaw-about-Y times pitch-about-X. -/
noncomputable def player_look_one (mode : LookMode)
    (settings : MovementSettings) (kb : KeyBindings) (w : Window)
    (pressed : List KeyCode) (events : List (ℝ × ℝ)) (dt : ℝ)
    (t : Transform) : Transform :=
  let yp := lookAngles mode settings kb w pressed events dt t.rotation
  { t with rotation := lookQuat yp.1 (clampR yp.2 (-1.54) 1.54) }

/-- The `player_move` system (src/lib.rs:100-144): updates every fly-camera
transform when a primary window exists, otherwise leaves them all unchanged
and logs a warning. -/
noncomputable def player_move (settings : MovementSettings)
    (kb : KeyBindings) (win : Option Window) (pressed : List KeyCode)
    (dt : ℝ) (cams : List Transform) : List Transform × List String :=
  match win with
  | some w => (cams.map (player_move_one settings kb w pressed dt), [])
  | none => (cams, ["Primary window not found for `player_move`!"])

/-- The `player_look` system (src/lib.rs:147-196): updates every fly-camera
transform when a primary window exists, otherwise leaves them all unchanged
and logs a warning. -/
noncomputable def player_look (mode : LookMode)
    (settings : MovementSettings) (kb : KeyBindings) (win : Option Window)
    (pressed : List KeyCode) (events : List (ℝ × ℝ)) (dt : ℝ)
    (cams : List Transform) : List Transform × List String :=
  match win with
  | some w =>
      (cams.map (player_look_one mode settings kb w pressed events dt), [])
  | none => (cams, ["Primary window not found for `player_look`!"])

/-- The body of `cursor_grab` on an available window (src/lib.rs:204-206):
toggle exactly when the configured toggle key was freshly pressed this
tick. -/
def cursor_grab_window (kb : KeyBindings) (keys : ButtonInput)
    (w : Window) : Window :=
  if kb.toggle_grab_cursor ∈ keys.just_pressed then toggle_grab_cursor w else w

/-- The `cursor_grab` system (src/lib.rs:198-210): acts on the primary window
when it exists, otherwise logs a warning and changes nothing. -/
def cursor_grab (kb : KeyBindings) (keys : ButtonInput)
    (win : Option Window) : Option Window × List String :=
  match win with
  | some w => (some (cursor_grab_window kb keys w), [])
  | none => (none, ["Primary window not found for `cursor_grab`!"])

/-- bevy's edge-detection semantics for `just_pressed`: over a run of ticks, a
key is in `just_pressed` exactly on ticks where it is down and was not down
on the previous tick. -/
def buttonTick (down prevDown : Bool) (k : KeyCode) : ButtonInput :=
  { pressed := if down then [k] else []
    just_pressed := if down && !prevDown then [k] else [] }

/-- Several consecutive ticks of the `cursor_grab` system with the toggle key
held or released per tick (`downs`), deriving `just_pressed` from consecutive
key states. -/
def cursorGrabRun (kb : KeyBindings) (prevDown : Bool) (downs : List Bool)
    (w : Window) : Window :=
  match downs with
  | [] => w
  | d :: rest =>
      cursorGrabRun kb d rest
        (cursor_grab_window kb (buttonTick d prevDown kb.toggle_grab_cursor) w)

/-- The spec's action order for movement-key dispatch: forward, backward,
left, right, ascend, descend, each paired with its direction contribution. -/
def actionOrder (kb : KeyBindings) (forward right : Vec3) :
    List (KeyCode × Vec3) :=
  [(kb.move_forward, forward), (kb.move_backward, -forward),
   (kb.move_left, -right), (kb.move_right, right),
   (kb.move_ascend, Vec3.unitY), (kb.move_descend, -Vec3.unitY)]

/-- Spec-side dispatch: the direction of the first action in the fixed order
whose binding equals the held key, or zero when none matches. -/
def firstMatchDir (kb : KeyBindings) (forward right : Vec3)
    (key : KeyCode) : Vec3 :=
  match (actionOrder kb forward right).find? (fun a => key == a.1) with
  | some a => a.2
  | none => 0

/-- Spec-side forward vector (spec §4.2 step 1):
`normalize(-(local_z.x, 0, local_z.z))`. -/
noncomputable def specForward (q : Quat) : Vec3 :=
  normalize3 (-(⟨(localZ q).x, 0, (localZ q).z⟩ : Vec3))

theorem Vec3.add_zero (v : Vec3) : v + 0 = v := by ext <;> simp

theorem Vec3.sub_def (a b : Vec3) : a - b = a + -b := by
  ext <;> simp <;> ring

theorem Vec3.smul_zero (c : ℝ) : c • (0 : Vec3) = 0 := by ext <;> simp

theorem Vec3.smul_smul (a b : ℝ) (v : Vec3) : a • (b • v) = (a * b) • v := by
  ext <;> simp <;> ring

theorem Vec3.one_smul (v : Vec3) : (1 : ℝ) • v = v := by ext <;> simp

theorem norm3_nonneg (v : Vec3) : 0 ≤ norm3 v := Real.sqrt_nonneg _

theorem norm3_eq_zero_iff (v : Vec3) : norm3 v = 0 ↔ v = 0 := by
  unfold norm3
  rw [Real.sqrt_eq_zero (by positivity)]
  constructor
  · intro h
    have hx : v.x ^ 2 = 0 := by nlinarith [sq_nonneg v.y, sq_nonneg v.z]
    have hy : v.y ^ 2 = 0 := by nlinarith [sq_nonneg v.x, sq_nonneg v.z]
    have hz : v.z ^ 2 = 0 := by nlinarith [sq_nonneg v.x, sq_nonneg v.y]
    ext
    · exact sq_eq_zero_iff.mp hx
    · exact sq_eq_zero_iff.mp hy
    · exact sq_eq_zero_iff.mp hz
  · rintro rfl; norm_num

theorem norm3_smul (c : ℝ) (v : Vec3) : norm3 (c • v) = |c| * norm3 v := by
  unfold norm3
  simp only [Vec3.smul_x, Vec3.smul_y, Vec3.smul_z]
  rw [show (c * v.x) ^ 2 + (c * v.y) ^ 2 + (c * v.z) ^ 2
        = c ^ 2 * (v.x ^ 2 + v.y ^ 2 + v.z ^ 2) by ring,
      Real.sqrt_mul (sq_nonneg c), Real.sqrt_sq_eq_abs]

theorem normalizeOrZero_zero : normalizeOrZero 0 = 0 := by
  unfold normalizeOrZero
  rw [if_pos ((norm3_eq_zero_iff 0).mpr rfl)]

theorem normalizeOrZero_eq_zero_iff (v : Vec3) :
    normalizeOrZero v = 0 ↔ v = 0 := by
  constructor
  · intro h0
    by_cases hn : norm3 v = 0
    · exact (norm3_eq_zero_iff v).mp hn
    · unfold normalizeOrZero at h0
      rw [if_neg hn] at h0
      have h1 : (norm3 v) • ((1 / norm3 v) • v) = (norm3 v) • (0 : Vec3) := by
        rw [h0]
      rw [Vec3.smul_smul, mul_one_div_cancel hn, Vec3.one_smul,
          Vec3.smul_zero] at h1
      exact h1
  · rintro rfl; exact normalizeOrZero_zero

theorem norm3_normalizeOrZero (v : Vec3) (h : v ≠ 0) :
    norm3 (normalizeOrZero v) = 1 := by
  have hn : norm3 v ≠ 0 := fun h0 => h ((norm3_eq_zero_iff v).mp h0)
  have hpos : 0 < norm3 v := lt_of_le_of_ne (norm3_nonneg v) (Ne.symm hn)
  unfold normalizeOrZero
  rw [if_neg hn, norm3_smul, abs_of_pos (one_div_pos.mpr hpos),
      one_div_mul_cancel hn]

theorem toggle_grab_cursor_ne (w : Window) : toggle_grab_cursor w ≠ w := by
  intro h
  have hg := congrArg Window.grab_mode h
  cases hw : w.grab_mode <;> simp [toggle_grab_cursor, hw] at hg

theorem foldl_id {β : Type} (l : List β) (a : Vec3) :
    l.foldl (fun v (_ : β) => v) a = a := by
  induction l generalizing a with
  | nil => rfl
  | cons b t ih => rw [List.foldl_cons]; exact ih a

theorem moveVelocityRaw_grab_none (kb : KeyBindings) (w : Window)
    (pressed : List KeyCode) (q : Quat)
    (h : w.grab_mode = CursorGrabMode.none) :
    moveVelocityRaw kb w pressed q = 0 := by
  unfold moveVelocityRaw
  have hf : (fun (v : Vec3) (key : KeyCode) =>
        match w.grab_mode with
        | CursorGrabMode.none => v
        | _ => moveKeyStep kb (moveForward q) (moveRight q) v key)
      = fun (v : Vec3) (_ : KeyCode) => v := by
    funext v key
    rw [h]
  rw [hf]
  exact foldl_id pressed 0

theorem player_move_one_grab_none (settings : MovementSettings)
    (kb : KeyBindings) (w : Window) (pressed : List KeyCode) (dt : ℝ)
    (t : Transform) (h : w.grab_mode = CursorGrabMode.none) :
    player_move_one settings kb w pressed dt t = t := by
  unfold player_move_one
  rw [moveVelocityRaw_grab_none kb w pressed t.rotation h, normalizeOrZero_zero,
      Vec3.smul_zero, Vec3.add_zero]

theorem lookAngles_grab_none (mode : LookMode) (settings : MovementSettings)
    (kb : KeyBindings) (w : Window) (pressed : List KeyCode)
    (events : List (ℝ × ℝ)) (dt : ℝ) (q : Quat)
    (h : w.grab_mode = CursorGrabMode.none) :
    lookAngles mode settings kb w pressed events dt q
      = ((toEulerYXZ q).1, (toEulerYXZ q).2.1) := by
  simp only [lookAngles, h]

theorem clampR_mem (x lo hi : ℝ) (h : lo ≤ hi) :
    lo ≤ clampR x lo hi ∧ clampR x lo hi ≤ hi :=
  ⟨le_max_left _ _, max_le h (min_le_right _ _)⟩

theorem clampR_eq_self (x lo hi : ℝ) (h1 : lo ≤ x) (h2 : x ≤ hi) :
    clampR x lo hi = x := by
  unfold clampR
  rw [min_eq_left h2, max_eq_right h1]

theorem bound154 : (1.54 : ℝ) < Real.pi / 2 := by
  nlinarith [Real.pi_gt_d2]

theorem sin_eq_half (θ : ℝ) :
    Real.sin θ = 2 * Real.sin (θ / 2) * Real.cos (θ / 2) := by
  have h := Real.sin_two_mul (θ / 2)
  rw [show 2 * (θ / 2) = θ by ring] at h
  exact h

theorem cos_eq_half (θ : ℝ) : Real.cos θ = 2 * Real.cos (θ / 2) ^ 2 - 1 := by
  have h := Real.cos_two_mul (θ / 2)
  rw [show 2 * (θ / 2) = θ by ring] at h
  exact h

theorem lookQuat_eq (y p : ℝ) :
    lookQuat y p =
      ⟨Real.cos (y / 2) * Real.sin (p / 2), Real.sin (y / 2) * Real.cos (p / 2),
       -(Real.sin (y / 2) * Real.sin (p / 2)),
       Real.cos (y / 2) * Real.cos (p / 2)⟩ := by
  unfold lookQuat fromAxisAngle Quat.mul Vec3.unitY Vec3.unitX
  ext <;> simp

theorem lookQuat_entry_pitch (y p : ℝ) :
    2 * ((lookQuat y p).w * (lookQuat y p).x
        - (lookQuat y p).y * (lookQuat y p).z) = Real.sin p := by
  simp only [lookQuat_eq]
  rw [sin_eq_half p]
  linear_combination (2 * Real.sin (p / 2) * Real.cos (p / 2)) *
    Real.sin_sq_add_cos_sq (y / 2)

theorem lookQuat_entry_m02 (y p : ℝ) :
    2 * ((lookQuat y p).x * (lookQuat y p).z
        + (lookQuat y p).w * (lookQuat y p).y) = Real.cos p * Real.sin y := by
  simp only [lookQuat_eq]
  rw [cos_eq_half p, sin_eq_half y]
  linear_combination (-(2 * Real.sin (y / 2) * Real.cos (y / 2))) *
    Real.sin_sq_add_cos_sq (p / 2)

theorem lookQuat_entry_m22 (y p : ℝ) :
    1 - 2 * ((lookQuat y p).x ^ 2 + (lookQuat y p).y ^ 2)
      = Real.cos p * Real.cos y := by
  simp only [lookQuat_eq]
  rw [cos_eq_half p, cos_eq_half y]
  linear_combination (-2 * Real.cos (p / 2) ^ 2) *
      Real.sin_sq_add_cos_sq (y / 2) +
    (-2 * Real.cos (y / 2) ^ 2) * Real.sin_sq_add_cos_sq (p / 2)

theorem lookQuat_entry_m10 (y p : ℝ) :
    2 * ((lookQuat y p).x * (lookQuat y p).y
        + (lookQuat y p).w * (lookQuat y p).z) = 0 := by
  simp only [lookQuat_eq]
  ring

theorem lookQuat_entry_m11 (y p : ℝ) :
    1 - 2 * ((lookQuat y p).x ^ 2 + (lookQuat y p).z ^ 2) = Real.cos p := by
  simp only [lookQuat_eq]
  rw [cos_eq_half p]
  linear_combination (-2 * Real.sin (p / 2) ^ 2) *
      Real.sin_sq_add_cos_sq (y / 2) + (-2 : ℝ) * Real.sin_sq_add_cos_sq (p / 2)

theorem atan2_pos_mul (r θ : ℝ) (hr : 0 < r) (h1 : -Real.pi < θ)
    (h2 : θ ≤ Real.pi) : atan2 (r * Real.sin θ) (r * Real.cos θ) = θ := by
  unfold atan2
  rw [show ((r * Real.cos θ : ℝ) : ℂ) + (r * Real.sin θ : ℝ) * Complex.I
        = (r : ℂ) * ((Real.cos θ : ℝ) + (Real.sin θ : ℝ) * Complex.I) by
      push_cast; ring,
    Complex.arg_real_mul _ hr, Complex.ofReal_cos, Complex.ofReal_sin,
    Complex.arg_cos_add_sin_mul_I ⟨h1, h2⟩]

theorem atan2_zero_of_nonneg (x : ℝ) (hx : 0 ≤ x) : atan2 0 x = 0 := by
  unfold atan2
  rw [show ((x : ℝ) : ℂ) + ((0 : ℝ) : ℂ) * Complex.I = ((x : ℝ) : ℂ) by
      push_cast; ring]
  exact Complex.arg_ofReal_of_nonneg hx

theorem toEuler_lookQuat_pitch (y p : ℝ) (h1 : -(Real.pi / 2) ≤ p)
    (h2 : p ≤ Real.pi / 2) : (toEulerYXZ (lookQuat y p)).2.1 = p := by
  simp only [toEulerYXZ]
  rw [lookQuat_entry_pitch, Real.arcsin_sin h1 h2]

theorem toEuler_lookQuat_yaw (y p : ℝ) (hy1 : -Real.pi < y)
    (hy2 : y ≤ Real.pi) (hp1 : -(Real.pi / 2) < p) (hp2 : p < Real.pi / 2) :
    (toEulerYXZ (lookQuat y p)).1 = y := by
  simp only [toEulerYXZ]
  rw [lookQuat_entry_m02, lookQuat_entry_m22]
  exact atan2_pos_mul (Real.cos p) y (Real.cos_pos_of_mem_Ioo ⟨hp1, hp2⟩)
    hy1 hy2

theorem toEuler_lookQuat_roll (y p : ℝ) (hp1 : -(Real.pi / 2) ≤ p)
    (hp2 : p ≤ Real.pi / 2) : (toEulerYXZ (lookQuat y p)).2.2 = 0 := by
  simp only [toEulerYXZ]
  rw [lookQuat_entry_m10, lookQuat_entry_m11]
  exact atan2_zero_of_nonneg _ (Real.cos_nonneg_of_mem_Icc ⟨hp1, hp2⟩)

/-- Claim C4 counterexample: starting from the free-but-hidden cursor state
(grab-mode free, visibility false), toggling the cursor grab twice does not
return to the original (grab-mode, visibility) pair — the second toggle
forces visibility to true. -/
theorem C4_counterexample :
    toggle_grab_cursor (toggle_grab_cursor
        ⟨CursorGrabMode.none, false, 720, 1280⟩)
      ≠ ⟨CursorGrabMode.none, false, 720, 1280⟩ := by
  simp [toggle_grab_cursor]

/-- Claim C4 (amended): for every initial cursor state satisfying the
documented pairing invariant — free with the cursor visible, or confined with
the cursor hidden — applying `toggle_grab_cursor` twice returns the cursor
state to the original (grab-mode, visibility) pair. -/
theorem C4_toggle_twice_id (w : Window)
    (h : (w.grab_mode = CursorGrabMode.none ∧ w.visible = true) ∨
         (w.grab_mode = CursorGrabMode.confined ∧ w.visible = false)) :
    toggle_grab_cursor (toggle_grab_cursor w) = w := by
  rcases h with ⟨h1, h2⟩ | ⟨h1, h2⟩ <;> (cases w; simp_all [toggle_grab_cursor])

/-- Claim C4 witness: the amended double-toggle law evaluated at the
free-and-visible state. -/
theorem C4_toggle_twice_id_witness :
    toggle_grab_cursor (toggle_grab_cursor
        ⟨CursorGrabMode.none, true, 720, 1280⟩)
      = ⟨CursorGrabMode.none, true, 720, 1280⟩ :=
  C4_toggle_twice_id ⟨CursorGrabMode.none, true, 720, 1280⟩ (Or.inl ⟨rfl, rfl⟩)

/-- Claim C7: with no primary window, each of the three per-tick systems
leaves every camera transform and the cursor state unchanged and logs a
warning naming the failing operation; with a window present, each performs
its normal update and logs nothing (so the systems resume normal operation on
any later tick with a window). -/
theorem C7_window_unavailable (mode : LookMode) (settings : MovementSettings)
    (kb : KeyBindings) (pressed : List KeyCode) (events : List (ℝ × ℝ))
    (dt : ℝ) (keys : ButtonInput) (cams : List Transform) :
    player_move settings kb Option.none pressed dt cams
        = (cams, ["Primary window not found for `player_move`!"]) ∧
    player_look mode settings kb Option.none pressed events dt cams
        = (cams, ["Primary window not found for `player_look`!"]) ∧
    cursor_grab kb keys Option.none
        = (Option.none, ["Primary window not found for `cursor_grab`!"]) ∧
    (∀ w : Window,
      player_move settings kb (some w) pressed dt cams
          = (cams.map (player_move_one settings kb w pressed dt), []) ∧
      player_look mode settings kb (some w) pressed events dt cams
          = (cams.map (player_look_one mode settings kb w pressed events dt),
             []) ∧
      cursor_grab kb keys (some w)
          = (some (cursor_grab_window kb keys w), [])) :=
  ⟨rfl, rfl, rfl, fun _ => ⟨rfl, rfl, rfl⟩⟩

/-- Claim C8: the cursor-grab system toggles the window state exactly when
the configured toggle key was freshly pressed this tick, and holding the
toggle key down across any number of consecutive ticks (starting from
released) toggles the state exactly once. -/
theorem C8_edge_triggered (kb : KeyBindings) (keys : ButtonInput)
    (w : Window) (n : ℕ) :
    ((cursor_grab_window kb keys w ≠ w)
        ↔ kb.toggle_grab_cursor ∈ keys.just_pressed) ∧
    cursorGrabRun kb false (true :: List.replicate n true) w
        = toggle_grab_cursor w := by
  constructor
  · constructor
    · intro hne
      by_contra hmem
      exact hne (by simp [cursor_grab_window, hmem])
    · intro hmem
      simp only [cursor_grab_window, if_pos hmem]
      exact toggle_grab_cursor_ne w
  · have haux : ∀ (m : ℕ) (w' : Window),
        cursorGrabRun kb true (List.replicate m true) w' = w' := by
      intro m
      induction m with
      | zero => intro w'; rfl
      | succ k ih =>
        intro w'
        rw [List.replicate_succ]
        show cursorGrabRun kb true (List.replicate k true)
          (cursor_grab_window kb
            (buttonTick true true kb.toggle_grab_cursor) w') = w'
        rw [show cursor_grab_window kb
              (buttonTick true true kb.toggle_grab_cursor) w' = w' by
            simp [cursor_grab_window, buttonTick]]
        exact ih w'
    show cursorGrabRun kb true (List.replicate n true)
      (cursor_grab_window kb (buttonTick true false kb.toggle_grab_cursor) w)
        = toggle_grab_cursor w
    rw [show cursor_grab_window kb
          (buttonTick true false kb.toggle_grab_cursor) w
          = toggle_grab_cursor w by simp [cursor_grab_window, buttonTick]]
    exact haux n _

/-- Claim C10: the per-key movement dispatch is an else-if chain, so a held
key contributes only the direction of the first action in the fixed order
forward, backward, left, right, ascend, descend whose binding matches it;
in particular with `KeyW` bound to both move-forward and move-ascend, a held
`KeyW` contributes only the forward direction. -/
theorem C10_first_match_only (kb : KeyBindings) (f r v : Vec3)
    (key : KeyCode) :
    moveKeyStep kb f r v key = v + firstMatchDir kb f r key ∧
    moveKeyStep { KeyBindings.default with move_ascend := KeyCode.keyW }
        f r v KeyCode.keyW = v + f := by
  constructor
  · by_cases h1 : key = kb.move_forward
    · subst h1
      simp [moveKeyStep, firstMatchDir, actionOrder, List.find?]
    by_cases h2 : key = kb.move_backward
    · subst h2
      simp [moveKeyStep, firstMatchDir, actionOrder, List.find?, h1,
        beq_eq_false_iff_ne.mpr h1, Vec3.sub_def]
    by_cases h3 : key = kb.move_left
    · subst h3
      simp [moveKeyStep, firstMatchDir, actionOrder, List.find?, h1, h2,
        beq_eq_false_iff_ne.mpr h1, beq_eq_false_iff_ne.mpr h2, Vec3.sub_def]
    by_cases h4 : key = kb.move_right
    · subst h4
      simp [moveKeyStep, firstMatchDir, actionOrder, List.find?, h1, h2, h3,
        beq_eq_false_iff_ne.mpr h1, beq_eq_false_iff_ne.mpr h2,
        beq_eq_false_iff_ne.mpr h3]
    by_cases h5 : key = kb.move_ascend
    · subst h5
      simp [moveKeyStep, firstMatchDir, actionOrder, List.find?, h1, h2, h3,
        h4, beq_eq_false_iff_ne.mpr h1, beq_eq_false_iff_ne.mpr h2,
        beq_eq_false_iff_ne.mpr h3, beq_eq_false_iff_ne.mpr h4]
    by_cases h6 : key = kb.move_descend
    · subst h6
      simp [moveKeyStep, firstMatchDir, actionOrder, List.find?, h1, h2, h3,
        h4, h5, beq_eq_false_iff_ne.mpr h1, beq_eq_false_iff_ne.mpr h2,
        beq_eq_false_iff_ne.mpr h3, beq_eq_false_iff_ne.mpr h4,
        beq_eq_false_iff_ne.mpr h5, Vec3.sub_def]
    · simp [moveKeyStep, firstMatchDir, actionOrder, List.find?, h1, h2, h3,
        h4, h5, h6, beq_eq_false_iff_ne.mpr h1, beq_eq_false_iff_ne.mpr h2,
        beq_eq_false_iff_ne.mpr h3, beq_eq_false_iff_ne.mpr h4,
        beq_eq_false_iff_ne.mpr h5, beq_eq_false_iff_ne.mpr h6,
        Vec3.add_zero]
  · simp [moveKeyStep, KeyBindings.default]

/-- Claim C1: after every execution of the look integrator on a fly-camera
transform with a window present, the pitch angle extracted from the resulting
orientation lies within [-1.54, 1.54] radians — for every input mode, every
grab mode, every sequence of mouse-motion events or held look keys, and
arbitrarily large per-event deltas (the clamp absorbs them rather than
wrapping). -/
theorem C1_pitch_always_clamped (mode : LookMode)
    (settings : MovementSettings) (kb : KeyBindings) (w : Window)
    (pressed : List KeyCode) (events : List (ℝ × ℝ)) (dt : ℝ)
    (t : Transform) :
    -1.54 ≤ (toEulerYXZ
        (player_look_one mode settings kb w pressed events dt t).rotation).2.1
      ∧ (toEulerYXZ
        (player_look_one mode settings kb w pressed events dt t).rotation).2.1
      ≤ 1.54 := by
  have hb := clampR_mem (lookAngles mode settings kb w pressed events dt
      t.rotation).2 (-1.54) 1.54 (by norm_num)
  have hπ := bound154
  have hrot : (player_look_one mode settings kb w pressed events dt
        t).rotation
      = lookQuat (lookAngles mode settings kb w pressed events dt
          t.rotation).1
        (clampR (lookAngles mode settings kb w pressed events dt
          t.rotation).2 (-1.54) 1.54) := rfl
  rw [hrot, toEuler_lookQuat_pitch _ _ (by linarith [hb.1]) (by
    linarith [hb.2])]
  exact hb

/-- Claim C2: the velocity the movement integrator applies is the
normalize-or-zero of the accumulated per-key contributions: it has unit
length or is the zero vector, it is zero exactly when the accumulated
contribution vector is zero (so normalization never divides by zero), and
holding no keys accumulates the zero vector. -/
theorem C2_velocity_unit_or_zero (kb : KeyBindings) (w : Window)
    (pressed : List KeyCode) (q : Quat) :
    (norm3 (normalizeOrZero (moveVelocityRaw kb w pressed q)) = 1 ∨
      normalizeOrZero (moveVelocityRaw kb w pressed q) = 0) ∧
    (normalizeOrZero (moveVelocityRaw kb w pressed q) = 0
      ↔ moveVelocityRaw kb w pressed q = 0) ∧
    (pressed = [] → moveVelocityRaw kb w pressed q = 0) := by
  refine ⟨?_, normalizeOrZero_eq_zero_iff _, ?_⟩
  · by_cases h : moveVelocityRaw kb w pressed q = 0
    · right
      rw [h]
      exact normalizeOrZero_zero
    · left
      exact norm3_normalizeOrZero _ h
  · rintro rfl
    rfl

/-- Claim C9: on every tick the look integrator rewrites the rotation as
`from_axis_angle(Y, yaw) * from_axis_angle(X, pitch)` with pitch clamped to
[-1.54, 1.54] — even when the cursor is free or no input occurred — and the
resulting orientation's Y-X-Z Euler decomposition recovers that pitch and has
zero roll, so any roll component or out-of-range pitch in a host-written
transform is removed. -/
theorem C9_rotation_rebuilt_canonical (mode : LookMode)
    (settings : MovementSettings) (kb : KeyBindings) (w : Window)
    (pressed : List KeyCode) (events : List (ℝ × ℝ)) (dt : ℝ)
    (t : Transform) :
    ∃ y p, (-1.54 ≤ p ∧ p ≤ 1.54) ∧
      (player_look_one mode settings kb w pressed events dt t).rotation
        = lookQuat y p ∧
      (toEulerYXZ (lookQuat y p)).2.1 = p ∧
      (toEulerYXZ (lookQuat y p)).2.2 = 0 := by
  have hb := clampR_mem (lookAngles mode settings kb w pressed events dt
      t.rotation).2 (-1.54) 1.54 (by norm_num)
  have hπ := bound154
  refine ⟨(lookAngles mode settings kb w pressed events dt t.rotation).1,
    clampR (lookAngles mode settings kb w pressed events dt t.rotation).2
      (-1.54) 1.54, ⟨hb.1, hb.2⟩, rfl, ?_, ?_⟩
  · exact toEuler_lookQuat_pitch _ _ (by linarith [hb.1]) (by linarith [hb.2])
  · exact toEuler_lookQuat_roll _ _ (by linarith [hb.1]) (by linarith [hb.2])

/-- Claim C3 counterexample: with the cursor free and no input at all, the
look integrator still rewrites the rotation from its extracted yaw/pitch, so
a host-written pure-roll rotation (the unit quaternion (0,0,1,0), 180° about
Z) is changed — the transform is not left unchanged. -/
theorem C3_counterexample :
    player_look_one LookMode.pointer MovementSettings.default
      KeyBindings.default ⟨CursorGrabMode.none, true, 720, 1280⟩ [] [] 1
      ⟨⟨0, 0, 0⟩, ⟨0, 0, 1, 0⟩⟩
    ≠ ⟨⟨0, 0, 0⟩, ⟨0, 0, 1, 0⟩⟩ := by
  have hyaw : (toEulerYXZ (⟨0, 0, 1, 0⟩ : Quat)).1 = 0 := by
    simp only [toEulerYXZ]
    norm_num
    exact atan2_zero_of_nonneg 1 (by norm_num)
  have hpitch : (toEulerYXZ (⟨0, 0, 1, 0⟩ : Quat)).2.1 = 0 := by
    simp only [toEulerYXZ]
    norm_num [Real.arcsin_zero]
  have hang : lookAngles LookMode.pointer MovementSettings.default
      KeyBindings.default ⟨CursorGrabMode.none, true, 720, 1280⟩ [] [] 1
      (⟨0, 0, 1, 0⟩ : Quat) = (0, 0) := by
    rw [lookAngles_grab_none _ _ _ _ _ _ _ _ rfl, hyaw, hpitch]
  have hlq : lookQuat 0 0 = (⟨0, 0, 0, 1⟩ : Quat) := by
    rw [lookQuat_eq]
    norm_num
  have hres : player_look_one LookMode.pointer MovementSettings.default
      KeyBindings.default ⟨CursorGrabMode.none, true, 720, 1280⟩ [] [] 1
      ⟨⟨0, 0, 0⟩, ⟨0, 0, 1, 0⟩⟩
      = ⟨⟨0, 0, 0⟩, ⟨0, 0, 0, 1⟩⟩ := by
    simp only [player_look_one, hang]
    rw [clampR_eq_self 0 (-1.54) 1.54 (by norm_num) (by norm_num), hlq]
  rw [hres]
  simp

/-- Claim C3 (amended): while the cursor grab mode is free, the movement
integrator leaves the transform unchanged for any held keys, and the look
integrator leaves it unchanged provided the current rotation is already in
the canonical yaw/pitch form it writes (yaw in (-π, π], pitch in
[-1.54, 1.54]); a rotation outside that form (e.g. with roll) is still
rewritten, as the counterexample shows. -/
theorem C3_grab_free_identity (mode : LookMode) (settings : MovementSettings)
    (kb : KeyBindings) (w : Window) (pressed : List KeyCode)
    (events : List (ℝ × ℝ)) (dt : ℝ) (t : Transform) (y p : ℝ)
    (hw : w.grab_mode = CursorGrabMode.none)
    (hy1 : -Real.pi < y) (hy2 : y ≤ Real.pi)
    (hp1 : -1.54 ≤ p) (hp2 : p ≤ 1.54)
    (hrot : t.rotation = lookQuat y p) :
    player_move_one settings kb w pressed dt t = t ∧
    player_look_one mode settings kb w pressed events dt t = t := by
  have hπ := bound154
  refine ⟨player_move_one_grab_none settings kb w pressed dt t hw, ?_⟩
  have hang := lookAngles_grab_none mode settings kb w pressed events dt
    t.rotation hw
  rw [hrot, toEuler_lookQuat_yaw y p hy1 hy2 (by linarith) (by linarith),
    toEuler_lookQuat_pitch y p (by linarith) (by linarith)] at hang
  simp only [player_look_one, hrot, hang]
  rw [clampR_eq_self p (-1.54) 1.54 hp1 hp2, ← hrot]

/-- Claim C3 witness: the amended free-cursor identity evaluated at a
concrete free window and a camera in canonical orientation. -/
theorem C3_grab_free_identity_witness :
    player_move_one MovementSettings.default KeyBindings.default
        ⟨CursorGrabMode.none, true, 720, 1280⟩ [KeyCode.keyW] 1
        ⟨⟨1, 2, 3⟩, lookQuat 0 0⟩
      = ⟨⟨1, 2, 3⟩, lookQuat 0 0⟩ ∧
    player_look_one LookMode.pointer MovementSettings.default
        KeyBindings.default ⟨CursorGrabMode.none, true, 720, 1280⟩
        [KeyCode.keyW] [(10, 20)] 1 ⟨⟨1, 2, 3⟩, lookQuat 0 0⟩
      = ⟨⟨1, 2, 3⟩, lookQuat 0 0⟩ :=
  C3_grab_free_identity LookMode.pointer MovementSettings.default
    KeyBindings.default ⟨CursorGrabMode.none, true, 720, 1280⟩
    [KeyCode.keyW] [(10, 20)] 1 ⟨⟨1, 2, 3⟩, lookQuat 0 0⟩ 0 0 rfl
    (by linarith [Real.pi_pos]) (by linarith [Real.pi_pos]) (by norm_num)
    (by norm_num) rfl

/-- Claim C5 counterexample: at the unit rotation (3/5, 0, 0, 4/5) — a pure
pitch with local_z = (0, -24/25, 7/25) — the forward vector the code
accumulates is the unnormalized horizontal projection (0, 0, -7/25): it
differs from the spec's `normalize(-(local_z.x, 0, local_z.z))` and does not
have unit length. -/
theorem C5_counterexample :
    unitQuat ⟨3/5, 0, 0, 4/5⟩ ∧
    moveForward ⟨3/5, 0, 0, 4/5⟩ ≠ specForward ⟨3/5, 0, 0, 4/5⟩ ∧
    norm3 (moveForward ⟨3/5, 0, 0, 4/5⟩) ≠ 1 := by
  have hlz : localZ ⟨3/5, 0, 0, 4/5⟩ = ⟨0, -(24/25), 7/25⟩ := by
    unfold localZ
    norm_num
  have hfwd : moveForward ⟨3/5, 0, 0, 4/5⟩ = ⟨0, 0, -(7/25)⟩ := by
    unfold moveForward
    rw [hlz]
    ext <;> norm_num
  have hnorm : norm3 (⟨0, 0, -(7/25)⟩ : Vec3) = 7/25 := by
    unfold norm3
    show Real.sqrt ((0 : ℝ) ^ 2 + (0 : ℝ) ^ 2 + (-(7/25 : ℝ)) ^ 2) = 7/25
    rw [show ((0 : ℝ) ^ 2 + (0 : ℝ) ^ 2 + (-(7/25 : ℝ)) ^ 2) = (7/25) ^ 2 by
      norm_num]
    exact Real.sqrt_sq (by norm_num)
  refine ⟨by norm_num [unitQuat], ?_, ?_⟩
  · intro h
    have hspec : specForward ⟨3/5, 0, 0, 4/5⟩ = ⟨0, 0, -1⟩ := by
      unfold specForward normalize3
      rw [hlz, show (-(⟨(⟨0, -(24/25), 7/25⟩ : Vec3).x, 0,
          (⟨0, -(24/25), 7/25⟩ : Vec3).z⟩ : Vec3)) = (⟨0, 0, -(7/25)⟩ : Vec3)
          by ext <;> norm_num, hnorm]
      ext <;> norm_num
    rw [hfwd, hspec] at h
    have := congrArg Vec3.z h
    norm_num at this
  · rw [hfwd, hnorm]
    norm_num

/-- Claim C5 (amended): the forward and right vectors `player_move`
accumulates are the unnormalized horizontal projections
`-(local_z.x, 0, local_z.z)` and `(local_z.z, 0, -local_z.x)` of the camera's
local z axis; for a unit rotation their squared length is 1 - local_z.y², so
they are unit vectors exactly when the local z axis is horizontal (pitch
zero), not in general. -/
theorem C5_unnormalized_basis (q : Quat) :
    moveForward q = ⟨-(localZ q).x, 0, -(localZ q).z⟩ ∧
    moveRight q = ⟨(localZ q).z, 0, -(localZ q).x⟩ ∧
    (unitQuat q →
      norm3 (moveForward q) ^ 2 + (localZ q).y ^ 2 = 1 ∧
      norm3 (moveRight q) ^ 2 + (localZ q).y ^ 2 = 1) := by
  refine ⟨by ext <;> simp [moveForward], rfl, fun hu => ?_⟩
  have hcol : (localZ q).x ^ 2 + (localZ q).y ^ 2 + (localZ q).z ^ 2 = 1 := by
    simp only [localZ]
    unfold unitQuat at hu
    linear_combination (4 * (q.x ^ 2 + q.y ^ 2)) * hu
  have hsq : ∀ v : Vec3, norm3 v ^ 2 = v.x ^ 2 + v.y ^ 2 + v.z ^ 2 :=
    fun v => Real.sq_sqrt (by positivity)
  constructor
  · rw [hsq]
    show (-(localZ q).x) ^ 2 + (-(0 : ℝ)) ^ 2 + (-(localZ q).z) ^ 2
        + (localZ q).y ^ 2 = 1
    linear_combination hcol
  · rw [hsq]
    show (localZ q).z ^ 2 + (0 : ℝ) ^ 2 + (-(localZ q).x) ^ 2
        + (localZ q).y ^ 2 = 1
    linear_combination hcol

/-- Claim C5 witness: the amended statement evaluated at the identity
rotation, where the basis vectors are indeed unit length. -/
theorem C5_unnormalized_basis_witness :
    unitQuat ⟨0, 0, 0, 1⟩ ∧
    (norm3 (moveForward ⟨0, 0, 0, 1⟩) ^ 2 + (localZ ⟨0, 0, 0, 1⟩).y ^ 2 = 1 ∧
     norm3 (moveRight ⟨0, 0, 0, 1⟩) ^ 2 + (localZ ⟨0, 0, 0, 1⟩).y ^ 2 = 1) :=
  ⟨by norm_num [unitQuat],
   (C5_unnormalized_basis ⟨0, 0, 0, 1⟩).2.2 (by norm_num [unitQuat])⟩

/-- Claim C6: in pointer mode with the cursor captured, one queued
mouse-motion event with delta (10, 0), default mouse sensitivity 0.00012 and
window scale min(720, 1280) = 720 decreases yaw by exactly
(0.00012 × 10 × 720) degrees converted to radians — which equals
0.864·π/180 (≈ 0.01508 rad) — and leaves pitch unchanged. -/
theorem C6_pointer_yaw_decrease (y p : ℝ) (tr : Vec3)
    (pressed : List KeyCode) (dt : ℝ)
    (hy1 : -Real.pi < y) (hy2 : y ≤ Real.pi)
    (hp1 : -1.54 ≤ p) (hp2 : p ≤ 1.54) :
    player_look_one LookMode.pointer MovementSettings.default
        KeyBindings.default ⟨CursorGrabMode.confined, false, 720, 1280⟩
        pressed [(10, 0)] dt ⟨tr, lookQuat y p⟩
      = ⟨tr, lookQuat (y - toRadians (0.00012 * 10 * 720)) p⟩ ∧
    toRadians (0.00012 * 10 * 720) = 0.864 * (Real.pi / 180) := by
  have hπ := bound154
  have hyaw := toEuler_lookQuat_yaw y p hy1 hy2 (by linarith) (by linarith)
  have hpitch := toEuler_lookQuat_pitch y p (by linarith) (by linarith)
  constructor
  · simp only [player_look_one, lookAngles, List.foldl_cons, List.foldl_nil,
      hyaw, hpitch]
    rw [min_eq_left (by norm_num : (720 : ℝ) ≤ 1280)]
    rw [show MovementSettings.default.mouse_sensitivity = (0.00012 : ℝ)
        from rfl]
    rw [show toRadians (0.00012 * 0 * (720 : ℝ)) = 0 by
      unfold toRadians; norm_num]
    rw [sub_zero, clampR_eq_self p (-1.54) 1.54 hp1 hp2]
  · unfold toRadians
    norm_num

/-- Claim C6 witness: the scenario evaluated from the level orientation
(yaw 0, pitch 0). -/
theorem C6_pointer_yaw_decrease_witness :
    player_look_one LookMode.pointer MovementSettings.default
        KeyBindings.default ⟨CursorGrabMode.confined, false, 720, 1280⟩ []
        [(10, 0)] 1 ⟨⟨0, 0, 0⟩, lookQuat 0 0⟩
      = ⟨⟨0, 0, 0⟩, lookQuat (0 - toRadians (0.00012 * 10 * 720)) 0⟩ ∧
    toRadians (0.00012 * 10 * 720) = 0.864 * (Real.pi / 180) :=
  C6_pointer_yaw_decrease 0 0 ⟨0, 0, 0⟩ [] 1 (by linarith [Real.pi_pos])
    (by linarith [Real.pi_pos]) (by norm_num) (by norm_num)

end FlyCam
